import Mathlib

/-!
Verification of the AWS-optimized chunked video uploader
(`backend/utils/chunkedVideoUploader.aws.js`, given as `src/unnamed/part_004`)
and the bucket-routing helper (`backend/config/supabaseStorage.aws.js`).

The JavaScript source is shallowly embedded: the asynchronous, effectful code
is modelled as pure functions over explicit session values, with the outcomes
of the external storage backend (per-attempt upload results, jitter draws,
delete results, clock readings) passed in as oracle parameters.  Each
definition mirrors one function (or one loop) of the source; line numbers in
doc comments refer to `src/unnamed/part_004` unless stated otherwise.
-/

/-! ### Configuration constants (supabaseStorage.aws.js, CHUNKED_UPLOAD_CONFIG) -/

/-- `MAX_RETRIES: 5` from `CHUNKED_UPLOAD_CONFIG`. -/
def MAX_RETRIES : Nat := 5

/-- `RETRY_DELAY_BASE: 2000` (ms) from `CHUNKED_UPLOAD_CONFIG`. -/
def RETRY_DELAY_BASE : Nat := 2000

/-- Default `CHUNK_SIZE: 10 * 1024 * 1024` (10MB) from `CHUNKED_UPLOAD_CONFIG`;
the value is environment-configurable, so theorems are stated for an arbitrary
positive chunk size. -/
def CHUNK_SIZE_DEFAULT : Nat := 10 * 1024 * 1024

/-- Default `MAX_CONCURRENT_CHUNKS: 2` from `CHUNKED_UPLOAD_CONFIG`. -/
def MAX_CONCURRENT_CHUNKS_DEFAULT : Nat := 2

/-! ### Chunk geometry

`initializeChunkedUpload` (line 48) computes
`totalChunks = Math.ceil(totalSize / CHUNK_SIZE)`, and the batch loop of
`uploadVideoInChunks` (lines 494-497) slices the buffer as
`start = i * CHUNK_SIZE; end = Math.min(start + CHUNK_SIZE, fileBuffer.length);
chunkBuffer = fileBuffer.slice(start, end)`. -/

/-- `Math.ceil(totalSize / CHUNK_SIZE)` (line 48), as exact ceiling division on
naturals. -/
def totalChunksOf (totalSize chunkSize : Nat) : Nat :=
  (totalSize + chunkSize - 1) / chunkSize

/-- `const start = i * CHUNK_SIZE` (line 495). -/
def chunkStart (chunkSize i : Nat) : Nat := i * chunkSize

/-- `const end = Math.min(start + CHUNK_SIZE, fileBuffer.length)` (line 496). -/
def chunkEnd (totalSize chunkSize i : Nat) : Nat :=
  min (chunkStart chunkSize i + chunkSize) totalSize

/-- Length of `fileBuffer.slice(start, end)` (line 497). -/
def chunkLen (totalSize chunkSize i : Nat) : Nat :=
  chunkEnd totalSize chunkSize i - chunkStart chunkSize i

/-! ### Decimal rendering, padding and extensions

JavaScript template interpolation renders numbers in decimal; `natDecimal`
models that rendering for the timestamp and chunk index of line 125. -/

/-- Little-endian base-10 digits of a natural number; `[]` for `0`. -/
def natDigitsRev : Nat → List Nat
  | 0 => []
  | n + 1 => ((n + 1) % 10) :: natDigitsRev ((n + 1) / 10)
decreasing_by exact Nat.div_lt_self (Nat.succ_pos n) (by decide)

/-- Value of a little-endian base-10 digit list (used only in proofs, as the
left inverse of `natDigitsRev`). -/
def ofDigitsRev : List Nat → Nat
  | [] => 0
  | d :: ds => d + 10 * ofDigitsRev ds

/-- Decimal rendering of a natural number, as produced by JavaScript template
interpolation of a number value. -/
def natDecimal (n : Nat) : String :=
  if n = 0 then "0" else String.mk (((natDigitsRev n).map Nat.digitChar).reverse)

/-- `chunkIndex.toString().padStart(4, '0')` (line 125). -/
def padStart4 (s : String) : String :=
  if s.length < 4 then String.mk (List.replicate (4 - s.length) '0') ++ s else s

/-- Node `path.extname(name)`: the final dot-suffix of the last path segment,
empty when there is no dot (a basename whose only dot is leading, such as
`.bashrc`, also yields empty). -/
def extnameOf (name : String) : String :=
  let base := (name.splitOn "/").getLastD name
  let parts := base.splitOn "."
  if parts.length ≤ 1 then ""
  else if (parts.headD "" == "") && (parts.length == 2) then ""
  else "." ++ parts.getLastD ""

/-! ### Session data model

`ChunkedVideo` mirrors the fields of the Mongoose record that
`chunkedVideoUploader.aws.js` reads and writes (lines 65-78, 104, 208-221,
254-268, 344-347, 388-429). -/

/-- One element of `uploadedChunks` as pushed at lines 208-215 (the constant
`awsOptimized: true` field is omitted). -/
structure ChunkRecord where
  chunkIndex : Nat
  chunkPath : String
  chunkSize : Nat
  uploadedAt : String
  uploadAttempts : Nat
  deriving Repr, DecidableEq

/-- The persisted upload-session record. -/
structure ChunkedVideo where
  videoId : String
  originalFilename : String
  totalSize : Nat
  totalChunks : Nat
  chunkSize : Nat
  mimetype : String
  bucket : String
  folder : String
  uploadedChunks : List ChunkRecord
  uploadProgress : ℚ
  isComplete : Bool
  finalVideoUrl : Option String
  completedAt : Option String
  deriving Repr, DecidableEq

/-- Modelled from the spec: the Mongoose model file
(`backend/models/chunkedVideo.js`, method `calculateProgress`) is not among
the sources; spec section 3 fixes
`progressPercent == uploadedChunks.size/totalChunks*100`. -/
def ChunkedVideo.calculateProgress (v : ChunkedVideo) : ChunkedVideo :=
  { v with uploadProgress := (v.uploadedChunks.length : ℚ) / (v.totalChunks : ℚ) * 100 }

/-- Modelled from the spec: method `checkCompletion` of the missing
`backend/models/chunkedVideo.js`; spec section 3 fixes
`isComplete ⇔ uploadedChunks.size == totalChunks`.  It records the flag on
the session and returns it. -/
def ChunkedVideo.checkCompletion (v : ChunkedVideo) : ChunkedVideo × Bool :=
  let c := v.uploadedChunks.length == v.totalChunks
  ({ v with isComplete := c }, c)

/-! ### Chunk transfer worker (`uploadChunk`, lines 99-239) -/

/-- Outcome of one storage attempt as observed by the retry loop: either the
path returned by a successful `upload`, or the message of the storage
error / timeout that the attempt's `catch` receives. -/
inductive AttemptOutcome where
  | success (path : String)
  | failure (msg : String)
  deriving Repr, DecidableEq

/-- One `supabaseAdmin.storage.upload` call issued by the worker
(lines 139-146): destination path and the `upsert` option. -/
structure StorageUploadCall where
  path : String
  upsert : Bool
  deriving Repr, DecidableEq

/-- The `errorDetails` object built when the final attempt fails
(lines 191-200); `chunkSizeMB` and the constant `awsOptimized` are omitted. -/
structure PermanentDetails where
  chunkIndex : Nat
  totalAttempts : Nat
  lastError : String
  chunkSize : Nat
  bucket : String
  timestamp : String
  deriving Repr, DecidableEq

/-- Errors thrown by `uploadChunk`; the outer catch (lines 235-238) re-wraps
the message but preserves the embedded details, so the structured payload is
kept. -/
inductive UploadChunkError where
  | recordNotFound
  | permanent (details : PermanentDetails)
  deriving Repr, DecidableEq

/-- Return value of `uploadChunk`: the `already_uploaded` branch (lines
115-119) omits the progress fields, hence the `Option`s. -/
structure UploadChunkResult where
  chunkIndex : Nat
  status : String
  chunkPath : String
  progress : Option ℚ
  isComplete : Option Bool
  uploadAttempts : Option Nat
  deriving Repr, DecidableEq

deriving instance DecidableEq for Except

/-- Full observable outcome of one `uploadChunk` invocation: the returned
value or thrown error, the session record as persisted afterwards, the
storage upload calls issued, and the backoff delays waited. -/
structure UploadChunkOut where
  result : Except UploadChunkError UploadChunkResult
  finalSession : Option ChunkedVideo
  uploads : List StorageUploadCall
  delays : List Nat
  deriving Repr, DecidableEq

/-- Lines 123-125: the destination path, computed once per invocation before
the first attempt:
`folder/chunks/videoId/{timestamp}_chunk_{index padded to 4}{ext}`. -/
def mkChunkFilename (folder videoId ext : String) (timestamp chunkIndex : Nat) : String :=
  folder ++ "/chunks/" ++ videoId ++ "/" ++ natDecimal timestamp
    ++ "_chunk_" ++ padStart4 (natDecimal chunkIndex) ++ ext

/-- The retry loop of `uploadChunk` (lines 133-205).  `outcomes a` is the
result of attempt number `a` (1-based); `jitters a` is the value of
`Math.random() * 2000` drawn on attempt `a` (line 184).  `fuel` equals
`MAX_RETRIES - attemptsSoFar`, so `fuel = 0` is exactly the loop guard
`uploadAttempts < MAX_RETRIES` turning false.  Returns the upload calls
issued, the delays waited, and either the successful path with the attempt
count or the `errorDetails` of lines 191-200. -/
def uploadLoopGo (outcomes : Nat → AttemptOutcome) (jitters : Nat → Nat)
    (fname : String) (chunkIndex bufLen : Nat) (bucket nowIso : String) :
    Nat → Nat → List StorageUploadCall × List Nat × Except PermanentDetails (String × Nat)
  | 0, attemptsSoFar => ([], [], .ok ("", attemptsSoFar))
  | fuel + 1, attemptsSoFar =>
    let attempt := attemptsSoFar + 1
    match outcomes attempt with
    | .success p => ([{ path := fname, upsert := false }], [], .ok (p, attempt))
    | .failure msg =>
      if attempt < MAX_RETRIES then
        let d := min (RETRY_DELAY_BASE * 2 ^ (attempt - 1) + jitters attempt) 30000
        let r := uploadLoopGo outcomes jitters fname chunkIndex bufLen bucket nowIso fuel attempt
        (({ path := fname, upsert := false } : StorageUploadCall) :: r.1, d :: r.2.1, r.2.2)
      else
        ([({ path := fname, upsert := false } : StorageUploadCall)], [],
         .error { chunkIndex := chunkIndex, totalAttempts := attempt, lastError := msg,
                  chunkSize := bufLen, bucket := bucket, timestamp := nowIso })

/-- `uploadChunk(videoId, chunkIndex, chunkBuffer)` (lines 99-239).
`session` is the result of `ChunkedVideo.findOne` (line 104); `bufLen` is
`chunkBuffer.length`; `timestamp` is the `Date.now()` reading of line 124 and
`nowIso` the ISO clock string used in records and error details. -/
def uploadChunk (session : Option ChunkedVideo) (chunkIndex bufLen timestamp : Nat)
    (outcomes : Nat → AttemptOutcome) (jitters : Nat → Nat) (nowIso : String) :
    UploadChunkOut :=
  match session with
  | none =>
      { result := .error .recordNotFound, finalSession := none, uploads := [], delays := [] }
  | some cv =>
      match cv.uploadedChunks.find? (fun c => c.chunkIndex == chunkIndex) with
      | some existing =>
          { result := .ok { chunkIndex := chunkIndex, status := "already_uploaded",
                            chunkPath := existing.chunkPath,
                            progress := none, isComplete := none, uploadAttempts := none },
            finalSession := some cv, uploads := [], delays := [] }
      | none =>
          let fname := mkChunkFilename cv.folder cv.videoId (extnameOf cv.originalFilename)
              timestamp chunkIndex
          let r := uploadLoopGo outcomes jitters fname chunkIndex bufLen cv.bucket nowIso
              MAX_RETRIES 0
          match r.2.2 with
          | .error d =>
              { result := .error (.permanent d), finalSession := some cv,
                uploads := r.1, delays := r.2.1 }
          | .ok (p, attempts) =>
              let cv1 := { cv with uploadedChunks := cv.uploadedChunks ++
                  [({ chunkIndex := chunkIndex, chunkPath := p, chunkSize := bufLen,
                      uploadedAt := nowIso, uploadAttempts := attempts } : ChunkRecord)] }
              let c := cv1.calculateProgress.checkCompletion
              { result := .ok { chunkIndex := chunkIndex, status := "uploaded", chunkPath := p,
                                progress := some c.1.uploadProgress,
                                isComplete := some c.2,
                                uploadAttempts := some attempts },
                finalSession := some c.1, uploads := r.1, delays := r.2.1 }


/-! ### Completion assembler (`completeChunkedUpload`, lines 244-379) -/

/-- One element of the `chunkUrls` array (lines 274-284). -/
structure ChunkUrl where
  index : Nat
  url : String
  size : Nat
  uploadAttempts : Nat
  deriving Repr, DecidableEq

/-- Insertion into a list sorted by `chunkIndex`. -/
def insertByIndex (c : ChunkRecord) : List ChunkRecord → List ChunkRecord
  | [] => [c]
  | d :: ds => if c.chunkIndex ≤ d.chunkIndex then c :: d :: ds else d :: insertByIndex c ds

/-- `uploadedChunks.sort((a, b) => a.chunkIndex - b.chunkIndex)` (lines 266
and 271): sorting by chunk index. -/
def sortByIndex (l : List ChunkRecord) : List ChunkRecord :=
  l.foldr insertByIndex []

/-- Return value of `completeChunkedUpload`.  The `already_completed` branch
(lines 260-267) returns a smaller object than the `completed` branch (lines
352-373): fields it omits are `none` here, and `chunks` carries either the
resolved URL objects (completed) or the raw sorted records
(already-completed), as in the source. -/
structure CompleteResult where
  videoId : String
  secure_url : String
  status : String
  isChunked : Bool
  public_id : Option String
  format : Option String
  size : Option Nat
  manifestUrl : Option String
  chunks : List ChunkUrl ⊕ List ChunkRecord
  deriving Repr, DecidableEq

/-- Errors thrown by `completeChunkedUpload` (lines 250-256); the outer wrap
of line 377 preserves them. -/
inductive CompleteError where
  | recordNotFound
  | incomplete
  deriving Repr, DecidableEq

/-- Observable outcome of one `completeChunkedUpload` call: the returned
value or thrown error, the session as persisted afterwards, and how many
manifest uploads were attempted against storage. -/
structure CompleteOut where
  result : Except CompleteError CompleteResult
  finalSession : Option ChunkedVideo
  manifestUploads : Nat
  deriving Repr, DecidableEq

/-- `completeChunkedUpload(videoId)` (lines 244-379).  `pub bucket path`
models `getPublicUrl`; the best-effort manifest upload of lines 309-334 may
fail without affecting the result (its failure is only logged, and the
manifest URL of line 341 is computed from the filename regardless), so its
outcome needs no parameter; `nowIso` is the completion clock reading. -/
def completeChunkedUpload (session : Option ChunkedVideo)
    (pub : String → String → String) (nowIso : String) : CompleteOut :=
  match session with
  | none => { result := .error .recordNotFound, finalSession := none, manifestUploads := 0 }
  | some cv =>
      if !cv.isComplete then
        { result := .error .incomplete, finalSession := some cv, manifestUploads := 0 }
      else if let some u := cv.finalVideoUrl then
        { result := .ok { videoId := cv.videoId, secure_url := u,
                          status := "already_completed", isChunked := true,
                          public_id := none, format := none, size := none,
                          manifestUrl := none,
                          chunks := .inr (sortByIndex cv.uploadedChunks) },
          finalSession := some cv, manifestUploads := 0 }
      else
        let sortedChunks := sortByIndex cv.uploadedChunks
        let chunkUrls := sortedChunks.map (fun c =>
          ({ index := c.chunkIndex, url := pub cv.bucket c.chunkPath,
             size := c.chunkSize, uploadAttempts := c.uploadAttempts } : ChunkUrl))
        let manifestFilename := cv.folder ++ "/manifests/aws_" ++ cv.videoId ++ "_manifest.json"
        let manifestUrl := pub cv.bucket manifestFilename
        let cv1 := { cv with finalVideoUrl := some manifestUrl, completedAt := some nowIso }
        { result := .ok { videoId := cv.videoId, secure_url := manifestUrl,
                          status := "completed", isChunked := true,
                          public_id := some manifestFilename,
                          format := some ((extnameOf cv.originalFilename).drop 1),
                          size := some cv.totalSize,
                          manifestUrl := some manifestUrl,
                          chunks := .inl chunkUrls },
          finalSession := some cv1, manifestUploads := 1 }

/-! ### Cleanup (`cleanupChunks`, lines 384-434) -/

/-- Storage and persistence operations issued by one cleanup call. -/
structure CleanupTrace where
  removeCalls : List (List String)
  recordDeleteCalls : Nat
  deriving Repr, DecidableEq

/-- Body of `cleanupChunks` up to the outer catch: a missing session (lines
389-392) and the completed-and-not-forced guard (lines 395-398) return
early; the batched storage remove (lines 403-423) sits in its own inner
try/catch, so `removeResult` is absorbed either way; the record deletion of
line 427 runs only when `force` and may throw. -/
def cleanupRun (session : Option ChunkedVideo) (force : Bool)
    (removeResult deleteRecordResult : Except String Unit) :
    Except String Unit × CleanupTrace :=
  match session with
  | none => (.ok (), { removeCalls := [], recordDeleteCalls := 0 })
  | some cv =>
      if !force && cv.isComplete then
        (.ok (), { removeCalls := [], recordDeleteCalls := 0 })
      else
        let chunkPaths := cv.uploadedChunks.map (fun c => c.chunkPath)
        let removeCalls := if chunkPaths.length > 0 then [chunkPaths] else []
        let _ := removeResult
        if force then
          match deleteRecordResult with
          | .ok _ => (.ok (), { removeCalls := removeCalls, recordDeleteCalls := 1 })
          | .error e => (.error e, { removeCalls := removeCalls, recordDeleteCalls := 1 })
        else (.ok (), { removeCalls := removeCalls, recordDeleteCalls := 0 })

/-- `cleanupChunks(videoId, force)` (lines 384-434): the outer catch at lines
431-433 turns any escaped failure into a logged, normal return. -/
def cleanupChunks (session : Option ChunkedVideo) (force : Bool)
    (removeResult deleteRecordResult : Except String Unit) :
    Except String Unit × CleanupTrace :=
  match cleanupRun session force removeResult deleteRecordResult with
  | (.ok _, t) => (.ok (), t)
  | (.error _, t) => (.ok (), t)

/-! ### Concurrency scheduler (batch loop of `uploadVideoInChunks`, lines
487-539) -/

/-- The batch-level error thrown at line 537: it reports the failing batch
by its first chunk in 1-BASED numbering (the source interpolates
`batchStart + 1`) and wraps the underlying per-chunk error. -/
structure BatchError where
  startChunkNum : Nat
  cause : UploadChunkError
  deriving Repr, DecidableEq

/-- Side effects of the scheduler that the claims observe. -/
inductive SchedulerEvent where
  | cleanupCall (force : Bool)
  deriving Repr, DecidableEq

/-- Least failing index in `[s, s + n)` under the per-chunk outcome oracle;
models `Promise.all` rejecting with the first (lowest-index) failing member
of the batch. -/
def firstFailIn (outcome : Nat → Option UploadChunkError) (s : Nat) :
    Nat → Option (Nat × UploadChunkError)
  | 0 => none
  | n + 1 =>
    match outcome s with
    | some e => some (s, e)
    | none => firstFailIn outcome (s + 1) n

/-- The batch loop of `uploadVideoInChunks` (lines 487-539): consecutive
batches of `mc = maxConcurrentChunks` indices run in sequence; a batch with
a failing member first triggers `cleanupChunks(videoId, true)` (line 532)
and then throws the `BatchError` of line 537.  `fuel` bounds the number of
batches; the entry point passes `tc`, which suffices whenever `mc ≥ 1`. -/
def processBatchesGo (tc mc : Nat) (outcome : Nat → Option UploadChunkError) :
    Nat → Nat → List SchedulerEvent × Except BatchError Unit
  | 0, _ => ([], .ok ())
  | fuel + 1, batchStart =>
    if batchStart < tc then
      let batchEnd := min (batchStart + mc) tc
      match firstFailIn outcome batchStart (batchEnd - batchStart) with
      | some (_, e) =>
          ([.cleanupCall true], .error { startChunkNum := batchStart + 1, cause := e })
      | none => processBatchesGo tc mc outcome fuel (batchStart + mc)
    else ([], .ok ())

/-- Entry point of the batch loop (`batchStart = 0`, line 487). -/
def processBatches (tc mc : Nat) (outcome : Nat → Option UploadChunkError) :
    List SchedulerEvent × Except BatchError Unit :=
  processBatchesGo tc mc outcome tc 0

/-! ### Media classifier (validation in `initializeChunkedUpload`, lines
31-44, and `getBucketForFileType` in supabaseStorage.aws.js, lines 205-251)
-/

/-- ASCII lowering of one character, as JavaScript `toLowerCase` acts on the
ASCII extension patterns in play. -/
def charLower (c : Char) : Char :=
  if 'A' ≤ c && c ≤ 'Z' then Char.ofNat (c.toNat + 32) else c

/-- JavaScript `toLowerCase` over the characters of the string. -/
def strToLower (s : String) : String := String.mk (s.data.map charLower)

/-- JavaScript `String.prototype.startsWith`. -/
def strStartsWith (s p : String) : Bool := s.data.take p.data.length == p.data

/-- JavaScript `String.prototype.endsWith`. -/
def strEndsWith (s p : String) : Bool :=
  s.data.drop (s.data.length - p.data.length) == p.data

/-- The extensions of the regex `(mp4|mov|avi|wmv|mkv|flv|webm)` (line 37). -/
def videoExtensions : List String :=
  [".mp4", ".mov", ".avi", ".wmv", ".mkv", ".flv", ".webm"]

/-- The case-insensitive dot-suffix test of the regex at line 37. -/
def hasVideoExtension (name : String) : Bool :=
  videoExtensions.any (fun e => strEndsWith (strToLower name) e)

/-- Lines 36-40: the video test of `initializeChunkedUpload` (the
`originalname &&` guards model JavaScript string truthiness: the empty
string is falsy). -/
def isVideoFileMeta (mimetype originalname : String) : Bool :=
  let isVideoByMimetype := strStartsWith mimetype "video/"
  let isVideoByExtension := (!(originalname == "")) && hasVideoExtension originalname
  let isMkvFile := (!(originalname == "")) && strEndsWith (strToLower originalname) ".mkv"
  let isOctetStreamMkv := (mimetype == "application/octet-stream") && isMkvFile
  isVideoByMimetype || isVideoByExtension || isOctetStreamMkv

/-- Validation failures of `initializeChunkedUpload` (lines 31-44); the
catch of lines 90-93 re-wraps them into the initialization error. -/
inductive InitError where
  | invalidBuffer
  | notVideo
  deriving Repr, DecidableEq

/-- The validation prefix of `initializeChunkedUpload` (lines 31-44):
a missing byte buffer fails first, then the media test. -/
def validateInit (hasBuffer : Bool) (mimetype originalname : String) :
    Except InitError Unit :=
  if !hasBuffer then .error .invalidBuffer
  else if !(isVideoFileMeta mimetype originalname) then .error .notVideo
  else .ok ()

/-- `ALLOWED_FILE_TYPES.VIDEOS` (supabaseStorage.aws.js lines 40-51);
`application/octet-stream` is included because mkv files are sometimes
detected as it. -/
def ALLOWED_VIDEO_TYPES : List String :=
  ["video/mp4", "video/mpeg", "video/quicktime", "video/x-msvideo", "video/webm",
   "video/x-matroska", "video/x-flv", "video/x-ms-wmv", "application/octet-stream"]

/-- `ALLOWED_FILE_TYPES.IMAGES`. -/
def ALLOWED_IMAGE_TYPES : List String :=
  ["image/jpeg", "image/jpg", "image/png", "image/gif", "image/webp"]

/-- `ALLOWED_FILE_TYPES.DOCUMENTS`. -/
def ALLOWED_DOCUMENT_TYPES : List String :=
  ["application/pdf", "application/msword",
   "application/vnd.openxmlformats-officedocument.wordprocessingml.document"]

/-- JavaScript `haystack.includes(needle)` for a nonempty needle. -/
def strIncludes (hay needle : String) : Bool :=
  (hay.splitOn needle).length != 1

/-- `getBucketForFileType(mimetype, folder, originalname)`
(supabaseStorage.aws.js lines 205-251).  `initializeChunkedUpload` calls it
with `originalname` omitted, i.e. falsy (line 49 of part_004), modelled as
the empty string. -/
def getBucketForFileType (mimetype folder originalname : String) : String :=
  let isVideoByMimetype := ALLOWED_VIDEO_TYPES.contains mimetype
  let isVideoByExtension := (!(originalname == "")) && hasVideoExtension originalname
  let isMkvFile := (!(originalname == "")) && strEndsWith (strToLower originalname) ".mkv"
  let isOctetStreamMkv := (mimetype == "application/octet-stream") && isMkvFile
  if isVideoByMimetype || isVideoByExtension || isOctetStreamMkv then "videos"
  else if ALLOWED_DOCUMENT_TYPES.contains mimetype then "documents"
  else if ALLOWED_IMAGE_TYPES.contains mimetype then
    if (!(folder == "")) && strIncludes folder "profile" then "profiles"
    else if (!(folder == "")) && (strIncludes folder "course" || folder == "courses") then
      "courses"
    else if (!(folder == "")) && strIncludes folder "chat" then "chat-files"
    else "images"
  else "images"

/-! ### Concrete sessions used by witnesses and counterexamples -/

/-- A session with one of three chunks uploaded. -/
def sessionA : ChunkedVideo :=
  { videoId := "vid", originalFilename := "movie.mp4", totalSize := 25,
    totalChunks := 3, chunkSize := 10, mimetype := "video/mp4",
    bucket := "videos", folder := "videos",
    uploadedChunks :=
      [{ chunkIndex := 0, chunkPath := "videos/chunks/vid/1_chunk_0000.mp4",
         chunkSize := 10, uploadedAt := "t0", uploadAttempts := 1 }],
    uploadProgress := 100 / 3, isComplete := false, finalVideoUrl := none,
    completedAt := none }

/-- The same session with no uploaded chunks. -/
def sessionB : ChunkedVideo :=
  { sessionA with uploadedChunks := [], uploadProgress := 0 }

/-- A session with its single chunk uploaded, eligible for completion. -/
def sessionC : ChunkedVideo :=
  { sessionA with
    totalChunks := 1, totalSize := 10, uploadProgress := 100,
    isComplete := true }

/-- `sessionC` with a manifest URL already recorded. -/
def sessionD : ChunkedVideo :=
  { sessionC with finalVideoUrl := some "u1", completedAt := some "t1" }

/-- A concrete URL resolver for witnesses. -/
def pubA : String → String → String := fun b p => "https://cdn/" ++ b ++ "/" ++ p

/-- A concrete permanent per-chunk error. -/
def permErr2 : UploadChunkError :=
  .permanent { chunkIndex := 2, totalAttempts := 5, lastError := "net",
               chunkSize := 10, bucket := "videos", timestamp := "t" }

/-- Chunk outcome oracle that fails exactly at index 2. -/
def outcomeFailAt2 : Nat → Option UploadChunkError :=
  fun i => if i = 2 then some permErr2 else none

theorem chunkLen_eq_min (ts cs i : Nat) :
    chunkLen ts cs i = min cs (ts - i * cs) := by
  unfold chunkLen chunkEnd chunkStart
  omega

theorem totalChunksOf_mul_ge (ts cs : Nat) (hcs : 0 < cs) :
    ts ≤ totalChunksOf ts cs * cs := by
  unfold totalChunksOf
  have h := Nat.div_add_mod (ts + cs - 1) cs
  have h2 := Nat.mod_lt (ts + cs - 1) hcs
  have h3 : (ts + cs - 1) / cs * cs = cs * ((ts + cs - 1) / cs) := Nat.mul_comm _ _
  omega

theorem totalChunksOf_mul_lt (ts cs : Nat) (hcs : 0 < cs) :
    totalChunksOf ts cs * cs < ts + cs := by
  unfold totalChunksOf
  have h := Nat.div_mul_le_self (ts + cs - 1) cs
  omega

theorem sum_chunkLen (ts cs : Nat) :
    ∀ n : Nat, ((List.range n).map (chunkLen ts cs)).sum = min (n * cs) ts := by
  intro n
  induction n with
  | zero => simp
  | succ m ih =>
      rw [List.range_succ, List.map_append, List.sum_append, ih]
      simp only [List.map_cons, List.map_nil, List.sum_cons, List.sum_nil]
      rw [chunkLen_eq_min]
      have : (m + 1) * cs = m * cs + cs := by ring
      omega

/-- C1: for a file with `totalSize > 0` and configured `chunkSize > 0`,
initialization computes `totalChunks = ceil(totalSize/chunkSize)` (line 48),
the scheduler slices at `offset = index * chunkSize` with
`length = min(chunkSize, remaining)` for each index below `totalChunks`
(lines 494-497), the per-chunk lengths sum to `totalSize`, and the final chunk
carries the remainder. -/
theorem C1_chunk_geometry (ts cs : Nat) (hts : 0 < ts) (hcs : 0 < cs) :
    totalChunksOf ts cs = Nat.ceil ((ts : ℚ) / (cs : ℚ))
    ∧ (∀ i, i < totalChunksOf ts cs →
        chunkStart cs i = i * cs ∧ chunkLen ts cs i = min cs (ts - i * cs))
    ∧ ((List.range (totalChunksOf ts cs)).map (chunkLen ts cs)).sum = ts
    ∧ chunkLen ts cs (totalChunksOf ts cs - 1)
        = ts - (totalChunksOf ts cs - 1) * cs := by
  have hge := totalChunksOf_mul_ge ts cs hcs
  have hlt := totalChunksOf_mul_lt ts cs hcs
  have hpos : 0 < totalChunksOf ts cs := by
    rcases Nat.eq_zero_or_pos (totalChunksOf ts cs) with h | h
    · rw [h] at hge; simp at hge; omega
    · exact h
  obtain ⟨k, hk⟩ : ∃ k, totalChunksOf ts cs = k + 1 := ⟨totalChunksOf ts cs - 1, by omega⟩
  refine ⟨?_, ?_, ?_, ?_⟩
  · rw [eq_comm, Nat.ceil_eq_iff (by omega)]
    have hcsQ : (0 : ℚ) < (cs : ℚ) := by exact_mod_cast hcs
    constructor
    · rw [lt_div_iff₀ hcsQ, hk]
      simp only [Nat.add_sub_cancel]
      have hklt : k * cs < ts := by
        have h2 : (k + 1) * cs = k * cs + cs := by ring
        rw [hk] at hlt
        omega
      exact_mod_cast hklt
    · rw [div_le_iff₀ hcsQ]
      exact_mod_cast hge
  · intro i _
    exact ⟨rfl, chunkLen_eq_min ts cs i⟩
  · rw [sum_chunkLen]
    omega
  · rw [chunkLen_eq_min, hk]
    simp only [Nat.add_sub_cancel]
    have h2 : (k + 1) * cs = k * cs + cs := by ring
    rw [hk] at hge hlt
    omega

/-- Witness for C1: a 25-unit source with chunk size 10 (the spec's 25MB/10MB
scenario, scaled) gives three chunks of lengths 10, 10, 5. -/
theorem C1_chunk_geometry_witness :
    0 < 25 ∧ 0 < 10 ∧
      (totalChunksOf 25 10 = Nat.ceil ((25 : ℚ) / (10 : ℚ))
       ∧ (∀ i, i < totalChunksOf 25 10 →
           chunkStart 10 i = i * 10 ∧ chunkLen 25 10 i = min 10 (25 - i * 10))
       ∧ ((List.range (totalChunksOf 25 10)).map (chunkLen 25 10)).sum = 25
       ∧ chunkLen 25 10 (totalChunksOf 25 10 - 1)
           = 25 - (totalChunksOf 25 10 - 1) * 10) :=
  ⟨by decide, by decide, C1_chunk_geometry 25 10 (by decide) (by decide)⟩

/-! ### C2: idempotence of `uploadChunk` per index -/

/-- C2: for every session and every index already present in
`uploadedChunks` (lines 110-120), a second `uploadChunk` call for that index
returns status `already_uploaded` with the existing record's storage path,
issues no storage upload, waits for no retry delay, and leaves the persisted
session unchanged. -/
theorem C2_uploadChunk_idempotent (cv : ChunkedVideo) (idx bufLen ts : Nat)
    (o : Nat → AttemptOutcome) (j : Nat → Nat) (now : String)
    (h : ∃ c ∈ cv.uploadedChunks, c.chunkIndex = idx) :
    ∃ r, cv.uploadedChunks.find? (fun c => c.chunkIndex == idx) = some r
      ∧ r ∈ cv.uploadedChunks ∧ r.chunkIndex = idx
      ∧ uploadChunk (some cv) idx bufLen ts o j now =
        { result := .ok { chunkIndex := idx, status := "already_uploaded",
                          chunkPath := r.chunkPath,
                          progress := none, isComplete := none, uploadAttempts := none },
          finalSession := some cv, uploads := [], delays := [] } := by
  have hsome : (cv.uploadedChunks.find? (fun c => c.chunkIndex == idx)).isSome := by
    rw [List.find?_isSome]
    obtain ⟨c, hc, hci⟩ := h
    exact ⟨c, hc, by simp [hci]⟩
  obtain ⟨r, hr⟩ := Option.isSome_iff_exists.mp hsome
  refine ⟨r, hr, List.mem_of_find?_eq_some hr, ?_, ?_⟩
  · have := List.find?_some hr
    simpa using this
  · simp [uploadChunk, hr]

/-- Witness for C2: re-submitting index 0 of `sessionA`. -/
theorem C2_uploadChunk_idempotent_witness :
    (∃ c ∈ sessionA.uploadedChunks, c.chunkIndex = 0) ∧
      (∃ r, sessionA.uploadedChunks.find? (fun c => c.chunkIndex == 0) = some r
        ∧ r ∈ sessionA.uploadedChunks ∧ r.chunkIndex = 0
        ∧ uploadChunk (some sessionA) 0 10 7 (fun _ => .failure "net") (fun _ => 0) "t1" =
          { result := .ok { chunkIndex := 0, status := "already_uploaded",
                            chunkPath := r.chunkPath,
                            progress := none, isComplete := none, uploadAttempts := none },
            finalSession := some sessionA, uploads := [], delays := [] }) :=
  ⟨by decide, C2_uploadChunk_idempotent sessionA 0 10 7
    (fun _ => .failure "net") (fun _ => 0) "t1" (by decide)⟩

/-! ### Retry loop evaluation lemmas -/

theorem uploadLoopGo_step_ok (o : Nat → AttemptOutcome) (j : Nat → Nat)
    (fname : String) (ci bl : Nat) (bk now : String) (fuel aSoFar : Nat) (p : String)
    (ho : o (aSoFar + 1) = .success p) :
    uploadLoopGo o j fname ci bl bk now (fuel + 1) aSoFar =
      ([{ path := fname, upsert := false }], [], .ok (p, aSoFar + 1)) := by
  simp [uploadLoopGo, ho]

theorem uploadLoopGo_step_fail (o : Nat → AttemptOutcome) (j : Nat → Nat)
    (fname : String) (ci bl : Nat) (bk now : String) (fuel aSoFar : Nat) (msg : String)
    (ho : o (aSoFar + 1) = .failure msg) (hlt : aSoFar + 1 < MAX_RETRIES) :
    uploadLoopGo o j fname ci bl bk now (fuel + 1) aSoFar =
      ({ path := fname, upsert := false } ::
          (uploadLoopGo o j fname ci bl bk now fuel (aSoFar + 1)).1,
       min (RETRY_DELAY_BASE * 2 ^ aSoFar + j (aSoFar + 1)) 30000 ::
          (uploadLoopGo o j fname ci bl bk now fuel (aSoFar + 1)).2.1,
       (uploadLoopGo o j fname ci bl bk now fuel (aSoFar + 1)).2.2) := by
  simp [uploadLoopGo, ho, hlt]

theorem uploadLoopGo_step_last_fail (o : Nat → AttemptOutcome) (j : Nat → Nat)
    (fname : String) (ci bl : Nat) (bk now : String) (fuel aSoFar : Nat) (msg : String)
    (ho : o (aSoFar + 1) = .failure msg) (hge : ¬ aSoFar + 1 < MAX_RETRIES) :
    uploadLoopGo o j fname ci bl bk now (fuel + 1) aSoFar =
      ([{ path := fname, upsert := false }], [],
       .error { chunkIndex := ci, totalAttempts := aSoFar + 1, lastError := msg,
                chunkSize := bl, bucket := bk, timestamp := now }) := by
  simp [uploadLoopGo, ho, hge]

/-- If attempts `1..n-1` fail and attempt `n ≤ MAX_RETRIES` succeeds, the loop
ends successfully at attempt `n`. -/
theorem uploadLoopGo_ok_of_outcomes (o : Nat → AttemptOutcome) (j : Nat → Nat)
    (fname : String) (ci bl : Nat) (bk now : String) (n : Nat) (p : String)
    (hn : n ≤ MAX_RETRIES) (hsucc : o n = .success p)
    (hfail : ∀ a, 1 ≤ a → a < n → ∃ m, o a = .failure m) :
    ∀ fuel aSoFar, aSoFar + fuel = MAX_RETRIES → aSoFar < n →
      (uploadLoopGo o j fname ci bl bk now fuel aSoFar).2.2 = .ok (p, n) := by
  intro fuel
  induction fuel with
  | zero => intro aSoFar h1 h2; omega
  | succ f ih =>
      intro aSoFar h1 h2
      by_cases he : aSoFar + 1 = n
      · rw [uploadLoopGo_step_ok o j fname ci bl bk now f aSoFar p (by rw [he]; exact hsucc)]
        simp [he]
      · have hlt : aSoFar + 1 < n := by omega
        obtain ⟨m, hm⟩ := hfail (aSoFar + 1) (by omega) hlt
        rw [uploadLoopGo_step_fail o j fname ci bl bk now f aSoFar m hm (by omega)]
        exact ih (aSoFar + 1) (by omega) hlt

/-- If every attempt up to `MAX_RETRIES` fails, the loop throws the
`errorDetails` of lines 191-200, with the final attempt's message. -/
theorem uploadLoopGo_error_of_outcomes (o : Nat → AttemptOutcome) (j : Nat → Nat)
    (fname : String) (ci bl : Nat) (bk now : String) (mlast : String)
    (hlast : o MAX_RETRIES = .failure mlast)
    (hfail : ∀ a, 1 ≤ a → a < MAX_RETRIES → ∃ m, o a = .failure m) :
    ∀ fuel aSoFar, aSoFar + fuel = MAX_RETRIES → aSoFar < MAX_RETRIES →
      (uploadLoopGo o j fname ci bl bk now fuel aSoFar).2.2 =
        .error { chunkIndex := ci, totalAttempts := MAX_RETRIES, lastError := mlast,
                 chunkSize := bl, bucket := bk, timestamp := now } := by
  intro fuel
  induction fuel with
  | zero => intro aSoFar h1 h2; omega
  | succ f ih =>
      intro aSoFar h1 h2
      by_cases he : aSoFar + 1 = MAX_RETRIES
      · rw [uploadLoopGo_step_last_fail o j fname ci bl bk now f aSoFar mlast
          (by rw [he]; exact hlast) (by omega)]
        simp [he]
      · obtain ⟨m, hm⟩ := hfail (aSoFar + 1) (by omega) (by omega)
        rw [uploadLoopGo_step_fail o j fname ci bl bk now f aSoFar m hm (by omega)]
        exact ih (aSoFar + 1) (by omega) (by omega)

/-- Projections of a fresh (not yet uploaded) `uploadChunk` run onto the
retry loop. -/
theorem uploadChunk_uploads_delays (cv : ChunkedVideo) (idx bufLen ts : Nat)
    (o : Nat → AttemptOutcome) (j : Nat → Nat) (now : String)
    (hfind : cv.uploadedChunks.find? (fun c => c.chunkIndex == idx) = none) :
    (uploadChunk (some cv) idx bufLen ts o j now).uploads =
      (uploadLoopGo o j
        (mkChunkFilename cv.folder cv.videoId (extnameOf cv.originalFilename) ts idx)
        idx bufLen cv.bucket now MAX_RETRIES 0).1
    ∧ (uploadChunk (some cv) idx bufLen ts o j now).delays =
      (uploadLoopGo o j
        (mkChunkFilename cv.folder cv.videoId (extnameOf cv.originalFilename) ts idx)
        idx bufLen cv.bucket now MAX_RETRIES 0).2.1 := by
  simp only [uploadChunk, hfind]
  cases hc : (uploadLoopGo o j
      (mkChunkFilename cv.folder cv.videoId (extnameOf cv.originalFilename) ts idx)
      idx bufLen cv.bucket now MAX_RETRIES 0).2.2 with
  | error d => simp [hc]
  | ok v => cases v with
    | mk p attempts => simp [hc]

theorem uploadChunk_result_of_loop_ok (cv : ChunkedVideo) (idx bufLen ts : Nat)
    (o : Nat → AttemptOutcome) (j : Nat → Nat) (now : String)
    (hfind : cv.uploadedChunks.find? (fun c => c.chunkIndex == idx) = none)
    (p : String) (a : Nat)
    (hloop : (uploadLoopGo o j
        (mkChunkFilename cv.folder cv.videoId (extnameOf cv.originalFilename) ts idx)
        idx bufLen cv.bucket now MAX_RETRIES 0).2.2 = .ok (p, a)) :
    ∃ res, (uploadChunk (some cv) idx bufLen ts o j now).result = .ok res
      ∧ res.status = "uploaded" ∧ res.chunkPath = p ∧ res.uploadAttempts = some a := by
  simp only [uploadChunk, hfind, hloop]
  exact ⟨_, rfl, rfl, rfl, rfl⟩

theorem uploadChunk_result_of_loop_error (cv : ChunkedVideo) (idx bufLen ts : Nat)
    (o : Nat → AttemptOutcome) (j : Nat → Nat) (now : String)
    (hfind : cv.uploadedChunks.find? (fun c => c.chunkIndex == idx) = none)
    (d : PermanentDetails)
    (hloop : (uploadLoopGo o j
        (mkChunkFilename cv.folder cv.videoId (extnameOf cv.originalFilename) ts idx)
        idx bufLen cv.bucket now MAX_RETRIES 0).2.2 = .error d) :
    (uploadChunk (some cv) idx bufLen ts o j now).result = .error (.permanent d) := by
  simp only [uploadChunk, hfind, hloop]

/-! ### C3: retry success and exhaustion -/

/-- C3: for an `uploadChunk` invocation on a not-yet-uploaded index: if the
transfer fails on exactly the first `MAX_RETRIES - 1` attempts and succeeds
on the next, the call returns success with `uploadAttempts = MAX_RETRIES`;
if all `MAX_RETRIES` attempts fail, it throws the permanent transfer error of
lines 191-202 carrying the chunk index, the attempt count, the chunk byte
size, the bucket, and a timestamp. -/
theorem C3_retry_semantics (cv : ChunkedVideo) (idx bufLen ts : Nat)
    (o : Nat → AttemptOutcome) (j : Nat → Nat) (now : String)
    (hfind : cv.uploadedChunks.find? (fun c => c.chunkIndex == idx) = none) :
    ((∀ a, 1 ≤ a → a < MAX_RETRIES → ∃ m, o a = .failure m) →
      ∀ p, o MAX_RETRIES = .success p →
        ∃ res, (uploadChunk (some cv) idx bufLen ts o j now).result = .ok res
          ∧ res.status = "uploaded" ∧ res.chunkPath = p
          ∧ res.uploadAttempts = some MAX_RETRIES)
    ∧ ((∀ a, 1 ≤ a → a < MAX_RETRIES → ∃ m, o a = .failure m) →
       ∀ mlast, o MAX_RETRIES = .failure mlast →
        (uploadChunk (some cv) idx bufLen ts o j now).result =
          .error (.permanent { chunkIndex := idx, totalAttempts := MAX_RETRIES,
                               lastError := mlast, chunkSize := bufLen,
                               bucket := cv.bucket, timestamp := now })) := by
  constructor
  · intro hfail p hsucc
    exact uploadChunk_result_of_loop_ok cv idx bufLen ts o j now hfind p MAX_RETRIES
      (uploadLoopGo_ok_of_outcomes o j
        (mkChunkFilename cv.folder cv.videoId (extnameOf cv.originalFilename) ts idx)
        idx bufLen cv.bucket now MAX_RETRIES p (le_refl _) hsucc hfail
        MAX_RETRIES 0 (by omega) (by decide))
  · intro hfail mlast hlast
    exact uploadChunk_result_of_loop_error cv idx bufLen ts o j now hfind _
      (uploadLoopGo_error_of_outcomes o j
        (mkChunkFilename cv.folder cv.videoId (extnameOf cv.originalFilename) ts idx)
        idx bufLen cv.bucket now mlast hlast hfail
        MAX_RETRIES 0 (by omega) (by decide))

/-- Witness for C3: index 1 of `sessionB`, with attempts 1-4 failing. -/
theorem C3_retry_semantics_witness :
    sessionB.uploadedChunks.find? (fun c => c.chunkIndex == 1) = none ∧
    (((∀ a, 1 ≤ a → a < MAX_RETRIES →
        ∃ m, (fun a => if a = 5 then AttemptOutcome.success "P" else .failure "net") a
          = .failure m) →
      ∀ p, (fun a => if a = 5 then AttemptOutcome.success "P" else .failure "net") MAX_RETRIES
          = .success p →
        ∃ res, (uploadChunk (some sessionB) 1 10 7
            (fun a => if a = 5 then AttemptOutcome.success "P" else .failure "net")
            (fun _ => 0) "t1").result = .ok res
          ∧ res.status = "uploaded" ∧ res.chunkPath = p
          ∧ res.uploadAttempts = some MAX_RETRIES)
    ∧ ((∀ a, 1 ≤ a → a < MAX_RETRIES →
        ∃ m, (fun a => if a = 5 then AttemptOutcome.success "P" else .failure "net") a
          = .failure m) →
       ∀ mlast, (fun a => if a = 5 then AttemptOutcome.success "P" else .failure "net") MAX_RETRIES
          = .failure mlast →
        (uploadChunk (some sessionB) 1 10 7
            (fun a => if a = 5 then AttemptOutcome.success "P" else .failure "net")
            (fun _ => 0) "t1").result =
          .error (.permanent { chunkIndex := 1, totalAttempts := MAX_RETRIES,
                               lastError := mlast, chunkSize := 10,
                               bucket := sessionB.bucket, timestamp := "t1" }))) :=
  ⟨by decide, C3_retry_semantics sessionB 1 10 7
      (fun a => if a = 5 then AttemptOutcome.success "P" else .failure "net")
      (fun _ => 0) "t1" (by decide)⟩

/-! ### C4: exponential backoff delay formula -/

/-- Every delay recorded by the retry loop obeys the backoff formula of lines
183-185: the wait after failed attempt `aSoFar + k + 1` is
`min(RETRY_DELAY_BASE * 2 ^ (attempt - 1) + jitter, 30000)`. -/
theorem uploadLoopGo_delay_formula (o : Nat → AttemptOutcome) (j : Nat → Nat)
    (fname : String) (ci bl : Nat) (bk now : String) :
    ∀ fuel aSoFar k,
      k < (uploadLoopGo o j fname ci bl bk now fuel aSoFar).2.1.length →
      (uploadLoopGo o j fname ci bl bk now fuel aSoFar).2.1[k]? =
        some (min (RETRY_DELAY_BASE * 2 ^ (aSoFar + k) + j (aSoFar + k + 1)) 30000) := by
  intro fuel
  induction fuel with
  | zero => intro aSoFar k hk; simp [uploadLoopGo] at hk
  | succ f ih =>
      intro aSoFar k hk
      cases ho : o (aSoFar + 1) with
      | success p =>
          rw [uploadLoopGo_step_ok o j fname ci bl bk now f aSoFar p ho] at hk
          simp at hk
      | failure msg =>
          by_cases hlt : aSoFar + 1 < MAX_RETRIES
          · rw [uploadLoopGo_step_fail o j fname ci bl bk now f aSoFar msg ho hlt] at hk ⊢
            cases k with
            | zero => simp
            | succ k' =>
                simp only [List.length_cons] at hk
                have h2 := ih (aSoFar + 1) k' (by omega)
                simp only [List.getElem?_cons_succ]
                rw [h2]
                have he : aSoFar + 1 + k' = aSoFar + (k' + 1) := by omega
                rw [he]
          · rw [uploadLoopGo_step_last_fail o j fname ci bl bk now f aSoFar msg ho hlt] at hk
            simp at hk

/-- C4: within one `uploadChunk` invocation on a fresh index, the delay waited
after failed attempt `k + 1` (1-based, not the last) equals
`min(RETRY_DELAY_BASE * 2 ^ ((k+1) - 1) + jitter, 30000)`, where the jitter
drawn for that attempt is below the fixed 2000 ms maximum (lines 181-188). -/
theorem C4_backoff_delay (cv : ChunkedVideo) (idx bufLen ts : Nat)
    (o : Nat → AttemptOutcome) (j : Nat → Nat) (now : String)
    (hfind : cv.uploadedChunks.find? (fun c => c.chunkIndex == idx) = none)
    (hj : ∀ a, j a < 2000) :
    ∀ k, k < (uploadChunk (some cv) idx bufLen ts o j now).delays.length →
      (uploadChunk (some cv) idx bufLen ts o j now).delays[k]? =
        some (min (RETRY_DELAY_BASE * 2 ^ ((k + 1) - 1) + j (k + 1)) 30000)
      ∧ j (k + 1) < 2000 := by
  intro k hk
  have hd := (uploadChunk_uploads_delays cv idx bufLen ts o j now hfind).2
  rw [hd] at hk ⊢
  refine ⟨?_, hj (k + 1)⟩
  have := uploadLoopGo_delay_formula o j
    (mkChunkFilename cv.folder cv.videoId (extnameOf cv.originalFilename) ts idx)
    idx bufLen cv.bucket now MAX_RETRIES 0 k hk
  simpa using this

/-- Witness for C4: all attempts fail on `sessionB`, so four delays are
recorded; the first equals `min(2000 * 2^0 + 0, 30000)`. -/
theorem C4_backoff_delay_witness :
    sessionB.uploadedChunks.find? (fun c => c.chunkIndex == 1) = none ∧
    (∀ a : Nat, (fun _ : Nat => 0) a < 2000) ∧
    (0 < (uploadChunk (some sessionB) 1 10 7 (fun _ => .failure "net")
        (fun _ : Nat => 0) "t1").delays.length ∧
      ((uploadChunk (some sessionB) 1 10 7 (fun _ => .failure "net")
          (fun _ : Nat => 0) "t1").delays[0]? =
          some (min (RETRY_DELAY_BASE * 2 ^ ((0 + 1) - 1) + (fun _ : Nat => 0) (0 + 1)) 30000)
        ∧ (fun _ : Nat => 0) (0 + 1) < 2000)) :=
  ⟨by decide, fun _ => (show (0 : Nat) < 2000 by decide),
    by decide,
    C4_backoff_delay sessionB 1 10 7 (fun _ => .failure "net") (fun _ : Nat => 0) "t1"
      (by decide) (fun _ => (show (0 : Nat) < 2000 by decide)) 0 (by decide)⟩

/-! ### C5: completion idempotence -/

/-- C5 counterexample: completing `sessionC` and then calling complete again
on the resulting session does not return the prior result unchanged: the
second result has status `already_completed` (with the auxiliary fields
absent) where the first had `completed`, though the manifest URL is the
same. -/
theorem C5_second_result_differs :
    (completeChunkedUpload
        (completeChunkedUpload (some sessionC) pubA "t1").finalSession pubA "t2").result ≠
      (completeChunkedUpload (some sessionC) pubA "t1").result := by decide

/-- C5 amended: for every session found complete with `finalVideoUrl`
already set, a second `complete` call returns the identical manifest URL
(as `secure_url`) with status `already_completed`, attempts no manifest
upload, and leaves the persisted session unchanged (lines 258-268); the
full result object is smaller than the first call's. -/
theorem C5_complete_idempotent_url (cv : ChunkedVideo)
    (pub : String → String → String) (now : String) (u : String)
    (hc : cv.isComplete = true) (hu : cv.finalVideoUrl = some u) :
    completeChunkedUpload (some cv) pub now =
      { result := .ok { videoId := cv.videoId, secure_url := u,
                        status := "already_completed", isChunked := true,
                        public_id := none, format := none, size := none,
                        manifestUrl := none,
                        chunks := .inr (sortByIndex cv.uploadedChunks) },
        finalSession := some cv, manifestUploads := 0 } := by
  simp [completeChunkedUpload, hc, hu]

/-- Witness for the amended C5 at `sessionD`. -/
theorem C5_complete_idempotent_url_witness :
    sessionD.isComplete = true ∧ sessionD.finalVideoUrl = some "u1" ∧
      completeChunkedUpload (some sessionD) pubA "t2" =
        { result := .ok { videoId := sessionD.videoId, secure_url := "u1",
                          status := "already_completed", isChunked := true,
                          public_id := none, format := none, size := none,
                          manifestUrl := none,
                          chunks := .inr (sortByIndex sessionD.uploadedChunks) },
          finalSession := some sessionD, manifestUploads := 0 } :=
  ⟨by decide, by decide,
    C5_complete_idempotent_url sessionD pubA "t2" "u1" (by decide) (by decide)⟩

/-! ### C6: batch failure handling -/

theorem firstFailIn_none (outcome : Nat → Option UploadChunkError) :
    ∀ n s, (∀ i, s ≤ i → i < s + n → outcome i = none) →
      firstFailIn outcome s n = none := by
  intro n
  induction n with
  | zero => intro s _; rfl
  | succ m ih =>
      intro s h
      have h0 : outcome s = none := h s (le_refl s) (by omega)
      simp only [firstFailIn, h0]
      exact ih (s + 1) (fun i h1 h2 => h i (by omega) (by omega))

theorem firstFailIn_finds (outcome : Nat → Option UploadChunkError) :
    ∀ n s f e, s ≤ f → f < s + n → outcome f = some e →
      (∀ i, s ≤ i → i < f → outcome i = none) →
      firstFailIn outcome s n = some (f, e) := by
  intro n
  induction n with
  | zero => intro s f e h1 h2 _ _; omega
  | succ m ih =>
      intro s f e h1 h2 hf hnone
      by_cases hsf : s = f
      · subst hsf; simp only [firstFailIn, hf]
      · have h0 : outcome s = none := hnone s (le_refl s) (by omega)
        simp only [firstFailIn, h0]
        exact ih (s + 1) f e (by omega) (by omega) hf
          (fun i hi1 hi2 => hnone i (by omega) hi2)

theorem processBatchesGo_fail (tc mc : Nat) (outcome : Nat → Option UploadChunkError)
    (f : Nat) (e : UploadChunkError) (hmcpos : 0 < mc)
    (hf : f < tc) (hfe : outcome f = some e)
    (hmin : ∀ i, i < f → outcome i = none) :
    ∀ fuel batchStart, batchStart ≤ f → f < batchStart + mc * fuel →
      processBatchesGo tc mc outcome fuel batchStart =
        ([.cleanupCall true],
         .error { startChunkNum := batchStart + mc * ((f - batchStart) / mc) + 1,
                  cause := e }) := by
  intro fuel
  induction fuel with
  | zero => intro batchStart h1 h2; omega
  | succ fl ih =>
      intro batchStart h1 h2
      have hbs : batchStart < tc := by omega
      by_cases hcase : f < min (batchStart + mc) tc
      · have hfind : firstFailIn outcome batchStart (min (batchStart + mc) tc - batchStart)
            = some (f, e) := by
          apply firstFailIn_finds outcome _ batchStart f e h1 (by omega) hfe
          intro i _ hi2
          exact hmin i hi2
        have hdiv : (f - batchStart) / mc = 0 := Nat.div_eq_of_lt (by omega)
        simp only [processBatchesGo, if_pos hbs, hfind, hdiv, Nat.mul_zero, Nat.add_zero]
      · have hminf : min (batchStart + mc) tc ≤ f := Nat.le_of_not_lt hcase
        have hbe : batchStart + mc ≤ f := by
          rcases Nat.le_total (batchStart + mc) tc with h | h
          · rw [min_eq_left h] at hminf; exact hminf
          · rw [min_eq_right h] at hminf; omega
        have hfind : firstFailIn outcome batchStart (min (batchStart + mc) tc - batchStart)
            = none := by
          apply firstFailIn_none
          intro i _ hi2
          exact hmin i (by omega)
        have hrec := ih (batchStart + mc) (by omega) (by
          have : mc * (fl + 1) = mc * fl + mc := by ring
          omega)
        simp only [processBatchesGo, if_pos hbs, hfind, hrec]
        have hnum : batchStart + mc + mc * ((f - (batchStart + mc)) / mc)
            = batchStart + mc * ((f - batchStart) / mc) := by
          have harg : f - (batchStart + mc) = f - batchStart - mc := by omega
          have hdd : (f - batchStart) / mc = (f - batchStart - mc) / mc + 1 :=
            Nat.div_eq_sub_div hmcpos (by omega)
          have hmul : mc * ((f - batchStart - mc) / mc + 1)
              = mc * ((f - batchStart - mc) / mc) + mc := by ring
          rw [harg, hdd, hmul]
          omega
        rw [hnum]

/-- C6 counterexample: with four chunks and concurrency 2, index 2 failing
permanently makes the second batch (start index 2) fail; cleanup is forced,
but the raised error reports 3 — `batchStart + 1` (line 537) — not the
failing batch's start index 2. -/
theorem C6_reported_start_counterexample :
    processBatches 4 2 outcomeFailAt2 =
      ([.cleanupCall true], .error { startChunkNum := 3, cause := permErr2 })
    ∧ (3 : Nat) ≠ 2 := by decide

/-- C6 amended: for every run of the batch loop in which some chunk fails
permanently (least failing index `f`, concurrency `mc ≥ 1`), the scheduler
triggers forced cleanup of the session and then raises a batch error that
wraps the underlying cause and reports the failing batch — which starts at
index `mc * (f / mc)` — by its start index PLUS ONE (the batch's first chunk
in 1-based numbering, line 537). -/
theorem C6_batch_failure (tc mc f : Nat) (outcome : Nat → Option UploadChunkError)
    (e : UploadChunkError) (hmc : 0 < mc) (hf : f < tc) (hfe : outcome f = some e)
    (hmin : ∀ i, i < f → outcome i = none) :
    processBatches tc mc outcome =
      ([.cleanupCall true],
       .error { startChunkNum := mc * (f / mc) + 1, cause := e }) := by
  have h := processBatchesGo_fail tc mc outcome f e hmc hf hfe hmin tc 0 (by omega)
    (by
      have : tc ≤ mc * tc := Nat.le_mul_of_pos_left tc hmc
      omega)
  simpa [processBatches] using h

/-- Witness for the amended C6 at the counterexample's inputs. -/
theorem C6_batch_failure_witness :
    (0 : Nat) < 2 ∧ (2 : Nat) < 4 ∧ outcomeFailAt2 2 = some permErr2 ∧
      (∀ i, i < 2 → outcomeFailAt2 i = none) ∧
      processBatches 4 2 outcomeFailAt2 =
        ([.cleanupCall true],
         .error { startChunkNum := 2 * (2 / 2) + 1, cause := permErr2 }) :=
  ⟨by decide, by decide, by decide, by decide,
    C6_batch_failure 4 2 2 outcomeFailAt2 permErr2 (by decide) (by decide)
      (by decide) (by decide)⟩

/-! ### C7 and C10: cleanup frame conditions and absorption -/

/-- C7: `cleanup(sessionId, force)` is a no-op when the session is missing
(lines 389-392) and when the session is complete and `force` is false (lines
395-398): no storage remove is issued and no record deletion is attempted;
and a record deletion is attempted only when `force` is true (line 426). -/
theorem C7_cleanup_noop (cv : ChunkedVideo) (force : Bool)
    (removeResult deleteRecordResult : Except String Unit) :
    (∀ f r d, cleanupChunks none f r d =
      (.ok (), { removeCalls := [], recordDeleteCalls := 0 }))
    ∧ (cv.isComplete = true →
        cleanupChunks (some cv) false removeResult deleteRecordResult =
          (.ok (), { removeCalls := [], recordDeleteCalls := 0 }))
    ∧ ((cleanupChunks (some cv) force removeResult deleteRecordResult).2.recordDeleteCalls
          > 0 → force = true) := by
  refine ⟨fun f r d => rfl, ?_, ?_⟩
  · intro hc
    simp [cleanupChunks, cleanupRun, hc]
  · intro hdel
    by_contra hforce
    have hf : force = false := by
      cases force
      · rfl
      · exact absurd rfl hforce
    subst hf
    by_cases hc : cv.isComplete <;> simp [cleanupChunks, cleanupRun, hc] at hdel

/-- Witness for C7 at the completed session `sessionD`. -/
theorem C7_cleanup_noop_witness :
    sessionD.isComplete = true ∧
      cleanupChunks (some sessionD) false (.ok ()) (.ok ()) =
        (.ok (), { removeCalls := [], recordDeleteCalls := 0 }) :=
  ⟨by decide,
    (C7_cleanup_noop sessionD false (.ok ()) (.ok ())).2.1 (by decide)⟩

/-- C10: `cleanupChunks` never raises to its caller: for every session value
and every storage / persistence outcome, the outer catch (lines 431-433)
absorbs any escaped failure, so the call returns normally. -/
theorem C10_cleanup_never_raises (session : Option ChunkedVideo) (force : Bool)
    (removeResult deleteRecordResult : Except String Unit) :
    (cleanupChunks session force removeResult deleteRecordResult).1 = .ok () := by
  unfold cleanupChunks
  rcases h : cleanupRun session force removeResult deleteRecordResult with ⟨r, t⟩
  cases r with
  | ok u => cases u; rfl
  | error e => rfl

/-! ### C8: media classification and bucket routing -/

/-- C8: the classification rule set of lines 36-44: an explicit `video/`
content type wins; otherwise a recognized filename extension counts as a
match; otherwise the generic `application/octet-stream` content type with a
recognized (mkv) extension counts as a match; initialization fails with a
validation error when the buffer is absent or none match; and a file with
the generic content type and a recognized video extension passes validation
and is routed to the `videos` bucket by `getBucketForFileType`, not the
default `images` bucket. -/
theorem C8_media_classification :
    (∀ mt n, strStartsWith mt "video/" = true → isVideoFileMeta mt n = true)
    ∧ (∀ mt n, (n == "") = false → hasVideoExtension n = true →
        isVideoFileMeta mt n = true)
    ∧ (∀ n, (n == "") = false → strEndsWith (strToLower n) ".mkv" = true →
        isVideoFileMeta "application/octet-stream" n = true)
    ∧ (∀ mt n, validateInit false mt n = .error .invalidBuffer)
    ∧ (∀ mt n, isVideoFileMeta mt n = false →
        validateInit true mt n = .error .notVideo)
    ∧ (∀ folder n, (n == "") = false → hasVideoExtension n = true →
        validateInit true "application/octet-stream" n = .ok ()
        ∧ getBucketForFileType "application/octet-stream" folder "" = "videos"
        ∧ "videos" ≠ "images") := by
  have hoctet : ALLOWED_VIDEO_TYPES.contains "application/octet-stream" = true := by decide
  refine ⟨?_, ?_, ?_, ?_, ?_, ?_⟩
  · intro mt n h
    simp [isVideoFileMeta, h]
  · intro mt n h1 h2
    simp [isVideoFileMeta, h1, h2]
  · intro n h1 h2
    simp [isVideoFileMeta, h1, h2]
  · intro mt n
    rfl
  · intro mt n h
    simp [validateInit, h]
  · intro folder n h1 h2
    refine ⟨?_, ?_, by decide⟩
    · simp [validateInit, isVideoFileMeta, h1, h2]
    · have hmem : "application/octet-stream" ∈ ALLOWED_VIDEO_TYPES := by decide
      simp [getBucketForFileType, hoctet, hmem]

/-- Witness for C8 at concrete files. -/
theorem C8_media_classification_witness :
    isVideoFileMeta "video/mp4" "a.mp4" = true
    ∧ isVideoFileMeta "text/plain" "b.WEBM" = true
    ∧ isVideoFileMeta "application/octet-stream" "c.mkv" = true
    ∧ validateInit false "video/mp4" "a.mp4" = .error .invalidBuffer
    ∧ validateInit true "text/plain" "doc.txt" = .error .notVideo
    ∧ (validateInit true "application/octet-stream" "c.mkv" = .ok ()
       ∧ getBucketForFileType "application/octet-stream" "videos" "" = "videos"
       ∧ "videos" ≠ "images") :=
  ⟨C8_media_classification.1 "video/mp4" "a.mp4" (by decide),
   C8_media_classification.2.1 "text/plain" "b.WEBM" (by decide) (by decide),
   C8_media_classification.2.2.1 "c.mkv" (by decide) (by decide),
   C8_media_classification.2.2.2.1 "video/mp4" "a.mp4",
   C8_media_classification.2.2.2.2.1 "text/plain" "doc.txt" (by decide),
   C8_media_classification.2.2.2.2.2 "videos" "c.mkv" (by decide) (by decide)⟩

/-! ### C9: path computed once, stable across retries, fresh per invocation -/

theorem ofDigitsRev_natDigitsRev : ∀ n, ofDigitsRev (natDigitsRev n) = n := by
  intro n
  induction n using Nat.strong_induction_on with
  | _ n ih =>
      match n with
      | 0 => simp [natDigitsRev, ofDigitsRev]
      | m + 1 =>
          rw [natDigitsRev, ofDigitsRev,
            ih ((m + 1) / 10) (Nat.div_lt_self (Nat.succ_pos m) (by decide))]
          exact Nat.mod_add_div (m + 1) 10

theorem natDigitsRev_lt_ten : ∀ n, ∀ x ∈ natDigitsRev n, x < 10 := by
  intro n
  induction n using Nat.strong_induction_on with
  | _ n ih =>
      match n with
      | 0 => intro x hx; simp [natDigitsRev] at hx
      | m + 1 =>
          intro x hx
          rw [natDigitsRev] at hx
          rcases List.mem_cons.mp hx with h | h
          · subst h; exact Nat.mod_lt _ (by decide)
          · exact ih ((m + 1) / 10) (Nat.div_lt_self (Nat.succ_pos m) (by decide)) x h

theorem digitChar_inj_lt : ∀ a, a < 10 → ∀ b, b < 10 →
    Nat.digitChar a = Nat.digitChar b → a = b := by decide

theorem map_digitChar_inj : ∀ l1 l2 : List Nat, (∀ x ∈ l1, x < 10) → (∀ x ∈ l2, x < 10) →
    l1.map Nat.digitChar = l2.map Nat.digitChar → l1 = l2 := by
  intro l1
  induction l1 with
  | nil =>
      intro l2 _ _ h
      cases l2 with
      | nil => rfl
      | cons b t2 => simp at h
  | cons a t ih =>
      intro l2 h1 h2 h
      cases l2 with
      | nil => simp at h
      | cons b t2 =>
          simp only [List.map_cons, List.cons.injEq] at h
          have hab : a = b := digitChar_inj_lt a (h1 a (List.mem_cons_self a t)) b
            (h2 b (List.mem_cons_self b t2)) h.1
          subst hab
          rw [ih t2 (fun x hx => h1 x (List.mem_cons_of_mem _ hx))
            (fun x hx => h2 x (List.mem_cons_of_mem _ hx)) h.2]

theorem natDecimal_ne_zero_eq (k : Nat) (hk : k ≠ 0) :
    natDecimal k = String.mk (((natDigitsRev k).map Nat.digitChar).reverse) := by
  simp [natDecimal, hk]

theorem natDecimal_inj (m n : Nat) (h : natDecimal m = natDecimal n) : m = n := by
  have aux : ∀ k : Nat, k ≠ 0 → natDecimal k = "0" → False := by
    intro k hk hzero
    rw [natDecimal_ne_zero_eq k hk] at hzero
    have hl : ((natDigitsRev k).map Nat.digitChar).reverse = ['0'] := by
      have := congrArg String.data hzero
      simpa using this
    have hmap : (natDigitsRev k).map Nat.digitChar = ['0'] := by
      have := congrArg List.reverse hl
      simpa using this
    have hd : natDigitsRev k = [0] := by
      apply map_digitChar_inj (natDigitsRev k) [0] (natDigitsRev_lt_ten k)
      · intro x hx; simp at hx; omega
      · rw [hmap]; rfl
    have hval := ofDigitsRev_natDigitsRev k
    rw [hd] at hval
    simp [ofDigitsRev] at hval
    omega
  by_cases hm : m = 0 <;> by_cases hn : n = 0
  · omega
  · subst hm
    exact absurd h.symm (fun hz => aux n hn hz)
  · subst hn
    exact absurd h (fun hz => aux m hm hz)
  · rw [natDecimal_ne_zero_eq m hm, natDecimal_ne_zero_eq n hn] at h
    have hl : ((natDigitsRev m).map Nat.digitChar).reverse
        = ((natDigitsRev n).map Nat.digitChar).reverse := by
      have := congrArg String.data h
      simpa using this
    have hmap : (natDigitsRev m).map Nat.digitChar = (natDigitsRev n).map Nat.digitChar := by
      have := congrArg List.reverse hl
      simpa using this
    have hd := map_digitChar_inj _ _ (natDigitsRev_lt_ten m) (natDigitsRev_lt_ten n) hmap
    have h1 := ofDigitsRev_natDigitsRev m
    have h2 := ofDigitsRev_natDigitsRev n
    rw [← h1, ← h2, hd]

theorem data_append (a b : String) : (a ++ b).data = a.data ++ b.data := rfl

theorem mkChunkFilename_timestamp_inj (folder videoId ext : String) (ci : Nat)
    (t1 t2 : Nat)
    (h : mkChunkFilename folder videoId ext t1 ci = mkChunkFilename folder videoId ext t2 ci) :
    t1 = t2 := by
  apply natDecimal_inj
  apply String.ext
  have hd := congrArg String.data h
  simp only [mkChunkFilename, data_append, List.append_assoc] at hd
  have h1 := List.append_cancel_left hd
  have h2 := List.append_cancel_left h1
  have h3 := List.append_cancel_left h2
  have h4 := List.append_cancel_left h3
  exact List.append_cancel_right h4

theorem uploadLoopGo_uploads_const (o : Nat → AttemptOutcome) (j : Nat → Nat)
    (fname : String) (ci bl : Nat) (bk now : String) :
    ∀ fuel aSoFar u, u ∈ (uploadLoopGo o j fname ci bl bk now fuel aSoFar).1 →
      u = { path := fname, upsert := false } := by
  intro fuel
  induction fuel with
  | zero => intro aSoFar u hu; simp [uploadLoopGo] at hu
  | succ f ih =>
      intro aSoFar u hu
      cases ho : o (aSoFar + 1) with
      | success p =>
          rw [uploadLoopGo_step_ok o j fname ci bl bk now f aSoFar p ho] at hu
          simpa using hu
      | failure msg =>
          by_cases hlt : aSoFar + 1 < MAX_RETRIES
          · rw [uploadLoopGo_step_fail o j fname ci bl bk now f aSoFar msg ho hlt] at hu
            rcases List.mem_cons.mp hu with h | h
            · exact h
            · exact ih (aSoFar + 1) u h
          · rw [uploadLoopGo_step_last_fail o j fname ci bl bk now f aSoFar msg ho hlt] at hu
            simpa using hu

/-- C9: within one `uploadChunk` invocation on a fresh index the destination
path is computed exactly once, before the first attempt (lines 122-125),
embedding the timestamp and zero-padded index, so every retry attempt of the
invocation uploads to that same path with `upsert: false` (line 144); and a
later separate invocation whose `Date.now()` reading differs computes a
different path. -/
theorem C9_path_once_and_fresh (cv : ChunkedVideo) (idx bufLen : Nat)
    (o : Nat → AttemptOutcome) (j : Nat → Nat) (now : String)
    (hfind : cv.uploadedChunks.find? (fun c => c.chunkIndex == idx) = none) :
    (∀ t u, u ∈ (uploadChunk (some cv) idx bufLen t o j now).uploads →
        u = { path := mkChunkFilename cv.folder cv.videoId
                (extnameOf cv.originalFilename) t idx,
              upsert := false })
    ∧ (∀ t1 t2 : Nat, t1 ≠ t2 →
        mkChunkFilename cv.folder cv.videoId (extnameOf cv.originalFilename) t1 idx ≠
          mkChunkFilename cv.folder cv.videoId (extnameOf cv.originalFilename) t2 idx) := by
  constructor
  · intro t u hu
    have hud := (uploadChunk_uploads_delays cv idx bufLen t o j now hfind).1
    rw [hud] at hu
    exact uploadLoopGo_uploads_const o j _ idx bufLen cv.bucket now MAX_RETRIES 0 u hu
  · intro t1 t2 hne heq
    exact hne (mkChunkFilename_timestamp_inj cv.folder cv.videoId
      (extnameOf cv.originalFilename) idx t1 t2 heq)

/-- Witness for C9 at `sessionB`, index 1. -/
theorem C9_path_once_and_fresh_witness :
    sessionB.uploadedChunks.find? (fun c => c.chunkIndex == 1) = none ∧
    ((∀ t u, u ∈ (uploadChunk (some sessionB) 1 10 t (fun _ => .failure "net")
          (fun _ => 0) "t1").uploads →
        u = { path := mkChunkFilename sessionB.folder sessionB.videoId
                (extnameOf sessionB.originalFilename) t 1,
              upsert := false })
     ∧ (∀ t1 t2 : Nat, t1 ≠ t2 →
        mkChunkFilename sessionB.folder sessionB.videoId
            (extnameOf sessionB.originalFilename) t1 1 ≠
          mkChunkFilename sessionB.folder sessionB.videoId
            (extnameOf sessionB.originalFilename) t2 1)) :=
  ⟨by decide, C9_path_once_and_fresh sessionB 1 10 (fun _ => .failure "net")
    (fun _ => 0) "t1" (by decide)⟩
